import Mathlib

/-!
# Verification of the UDP webcam broadcast server

Shallow embedding of `src/Virtual_Try_On_Blush/udp_webcam_server.py`
(class `UDPWebcamServer`): the client registry, the registration
handler, the control-command handler, the per-frame fragmentation and
fan-out of `send_frames`, and the sequence-number discipline.

Conventions of the embedding:
* a transport endpoint (a Python `(host, port)` tuple) is an opaque
  `Addr := Nat`, equality by value;
* the Python `set` `self.clients` is a `Finset Addr`;
* decoded datagram text is a `List Char` (`Str`), and Python's string
  primitives `str.strip()`, `str.split(sep)`, `str.startswith`,
  `int(...)`, `float(...)` are given explicit list-level models below;
* byte strings (encoded frames, wire datagrams) are `List Nat`,
  each element one byte value;
* Python floats (the blush intensity) are modelled by `Rat`;
* network failures are supplied by oracles (`RecvEvent`, `failAt`),
  since whether a `recvfrom`/`sendto` raises is decided by the
  transport, not by this program.
-/

/-- An opaque client endpoint (host + port), equality by value. -/
abbrev Addr := Nat

/-- Decoded datagram text. -/
abbrev Str := List Char

/-! ## Python string primitives -/

/-- ASCII whitespace, the relevant subset of what Python's
`str.strip()` removes. -/
def isSpaceChar (c : Char) : Bool :=
  c = ' ' || c = '\t' || c = '\n' || c = '\x0d' || c = '\x0b' || c = '\x0c'

/-- `s.strip()`: remove leading and trailing whitespace. -/
def pyStrip (l : Str) : Str :=
  ((l.dropWhile isSpaceChar).reverse.dropWhile isSpaceChar).reverse

/-- `s.split(sep)` for a one-character separator: splits at every
occurrence, keeping empty fields (`"".split(",") == [""]`). -/
def pySplit (sep : Char) : Str → List Str
  | [] => [[]]
  | c :: rest =>
      match pySplit sep rest with
      | [] => [[]]
      | grp :: gs => if c = sep then [] :: grp :: gs else (c :: grp) :: gs

/-- `s.startswith(pre)`. -/
def startsWithText : Str → Str → Bool
  | [], _ => true
  | _ :: _, [] => false
  | p :: ps, c :: cs => if p = c then startsWithText ps cs else false

/-- The value of a nonempty all-digit string, else `none`. -/
def digitsVal? (l : Str) : Option Nat :=
  if l ≠ [] ∧ l.all Char.isDigit then
    some (l.foldl (fun a c => a * 10 + (c.toNat - 48)) 0)
  else none

/-- Python `int(...)` on the decimal literals the protocol uses:
surrounding whitespace, an optional sign, then digits. -/
def pyInt? (l : Str) : Option Int :=
  match pyStrip l with
  | '-' :: ds => (digitsVal? ds).map (fun n => -(n : Int))
  | '+' :: ds => (digitsVal? ds).map (fun n => (n : Int))
  | ds => (digitsVal? ds).map (fun n => (n : Int))

/-- Python `float(...)` on the plain decimal literals the intensity
command uses: optional sign, integer digits, optional fractional
digits. -/
def pyFloat? (l : Str) : Option Rat :=
  let core (t : Str) : Option Rat :=
    match pySplit '.' t with
    | [i] => (digitsVal? i).map (fun n => (n : Rat))
    | [i, f] =>
        match digitsVal? i, digitsVal? f with
        | some n, some m => some ((n : Rat) + (m : Rat) / ((10 : Rat) ^ f.length))
        | _, _ => none
    | _ => none
  match pyStrip l with
  | '-' :: t => (core t).map (fun q => -q)
  | '+' :: t => core t
  | t => core t

/-! ## Registration listener (`listen_for_clients`, lines 73–95)

```python
if addr not in self.clients and message == "REGISTER":
    self.clients.add(addr)
    self.server_socket.sendto(b"REGISTERED", addr)
elif message == "UNREGISTER" and addr in self.clients:
    self.clients.discard(addr)
```
-/

/-- One registration datagram handled: the new client set and the
optional reply sent back to the sender. -/
def listen_for_clients_handle (clients : Finset Addr) (addr : Addr)
    (message : Str) : Finset Addr × Option Str :=
  if addr ∉ clients ∧ message = "REGISTER".data then
    (insert addr clients, some "REGISTERED".data)
  else if message = "UNREGISTER".data ∧ addr ∈ clients then
    (clients.erase addr, none)
  else
    (clients, none)

/-- What `recvfrom` delivers to one iteration of the listener loop: a
timeout, a datagram (whose UTF-8 decode either yields a string or
raises, the latter modelled by `none`), or a socket-level exception. -/
inductive RecvEvent where
  | timeout : RecvEvent
  | datagram (addr : Addr) (decoded : Option Str) : RecvEvent
  | socketError : RecvEvent
deriving DecidableEq, Repr

/-- Whether the loop proceeds to its next `recvfrom` or terminates. -/
inductive LoopAction where
  | continueLoop : LoopAction
  | breakLoop : LoopAction
deriving DecidableEq, Repr

/-- One full iteration of the `listen_for_clients` receive loop
(lines 76–95): `socket.timeout` continues; any other exception — in
particular a `UnicodeDecodeError` from `data.decode('utf-8')` — falls
to the generic `except Exception` arm, which logs and then `break`s
out of the loop. -/
def listen_for_clients_step (clients : Finset Addr) (ev : RecvEvent) :
    Finset Addr × Option Str × LoopAction :=
  match ev with
  | .timeout => (clients, none, .continueLoop)
  | .datagram addr (some message) =>
      let (c, r) := listen_for_clients_handle clients addr message
      (c, r, .continueLoop)
  | .datagram _ none => (clients, none, .breakLoop)
  | .socketError => (clients, none, .breakLoop)

/-! ## Control listener (`listen_for_controls`, lines 97–148) -/

/-- The live-tunable blush parameters of the server object
(`__init__`, lines 50–52), the Python float intensity as `Rat`. -/
structure BlushParams where
  blush_color_rgb : Int × Int × Int
  blush_intensity : Rat
  blush_blur : Int
deriving DecidableEq, Repr

/-- The values set in `__init__`: color `(235, 148, 146)`,
intensity `0.25`, blur `15`. -/
def initParams : BlushParams :=
  { blush_color_rgb := (235, 148, 146)
    blush_intensity := 1/4
    blush_blur := 15 }

/-- The acknowledgement / error tokens the control listener sends. -/
inductive ControlReply where
  | colorOk | colorError | intensityOk | intensityError | blurOk | blurError
deriving DecidableEq, Repr

/-- `r, g, b = map(int, rgb_str.split(","))`: succeeds exactly when
the string splits on `","` into three fields, each parsing as an
integer. -/
def parseRGB (s : Str) : Option (Int × Int × Int) :=
  match (pySplit ',' s).mapM pyInt? with
  | some [r, g, b] => some (r, g, b)
  | _ => none

/-- One control datagram handled (lines 102–142).  The raw text is
stripped (`.strip()`); the `COLOR:`/`INTENSITY:`/`BLUR:` prefixes are
dispatched on; a parse failure inside a recognized branch answers the
branch's `_ERROR` token; any other text is ignored with no reply.
The argument of a recognized command is `command.split(":")[1]`.
Note that the `COLOR:` branch stores whatever three integers parse —
the code has no range check on the channels. -/
def listen_for_controls_handle (st : BlushParams) (data : Str) :
    BlushParams × Option ControlReply :=
  let command := pyStrip data
  if startsWithText "COLOR:".data command then
    match parseRGB ((pySplit ':' command).getD 1 []) with
    | some (r, g, b) =>
        ({ st with blush_color_rgb := (r, g, b) }, some .colorOk)
    | none => (st, some .colorError)
  else if startsWithText "INTENSITY:".data command then
    match pyFloat? ((pySplit ':' command).getD 1 []) with
    | some x =>
        ({ st with blush_intensity := max 0 (min 1 x) }, some .intensityOk)
    | none => (st, some .intensityError)
  else if startsWithText "BLUR:".data command then
    match pyInt? ((pySplit ':' command).getD 1 []) with
    | some n =>
        ({ st with blush_blur := max 5 (min 50 n) }, some .blurOk)
    | none => (st, some .blurError)
  else
    (st, none)

/-! ## Fragmentation (`send_frames`, lines 286–302) -/

/-- `header_size = 12` (line 287). -/
def header_size : Nat := 12

/-- `self.max_packet_size = 32768` (line 30). -/
def max_packet_size : Nat := 32768

/-- One fragment before byte-packing: the three header fields and the
payload slice `frame_data[start_pos:end_pos]`. -/
structure Fragment where
  seq : Nat
  total : Nat
  idx : Nat
  chunk : List Nat
deriving DecidableEq, Repr

/-- The packetization of lines 287–300: `payload_size` is
`max_packet_size - header_size`, `total_packets` is
`math.ceil(frame_size / payload_size)`, and packet `i` carries
`frame_data[i*payload_size : min((i+1)*payload_size, frame_size)]`.
(The ceiling is written `(a + b - 1) / b`, the value `math.ceil(a/b)`
takes for every `b > 0`; the Python code divides by zero when
`max_packet ≤ header_size`, a case no claim reaches.) -/
def fragmentPayload (seq_number : Nat) (max_packet : Nat)
    (frame_data : List Nat) : List Fragment :=
  let payload_size := max_packet - header_size
  let frame_size := frame_data.length
  let total_packets := (frame_size + payload_size - 1) / payload_size
  (List.range total_packets).map (fun packet_index =>
    { seq := seq_number
      total := total_packets
      idx := packet_index
      chunk := (frame_data.drop (packet_index * payload_size)).take payload_size })

/-- A 32-bit big-endian byte encoding (network byte order), the layout
`struct.pack("!I", n)` produces for `n < 2^32`. -/
def be32 (n : Nat) : List Nat :=
  [n / 2 ^ 24 % 256, n / 2 ^ 16 % 256, n / 2 ^ 8 % 256, n % 256]

/-- `struct.pack("!III", seq, total, idx)` (line 299): twelve header
bytes when every field fits in 32 bits; `struct.error` (modelled by
`none`) otherwise — `"I"` requires `0 <= number <= 2^32 - 1`. -/
def packHeader (seq_number total_packets packet_index : Nat) :
    Option (List Nat) :=
  if seq_number < 2 ^ 32 ∧ total_packets < 2 ^ 32 ∧ packet_index < 2 ^ 32 then
    some (be32 seq_number ++ be32 total_packets ++ be32 packet_index)
  else none

/-- `udp_packet = header + frame_data[start_pos:end_pos]` (line 300). -/
def fragment_datagram (f : Fragment) : Option (List Nat) :=
  (packHeader f.seq f.total f.idx).map (fun h => h ++ f.chunk)

/-- All wire datagrams of one frame, `none` if any header fails to
pack. -/
def frame_datagrams (seq_number max_packet : Nat) (frame_data : List Nat) :
    Option (List (List Nat)) :=
  (fragmentPayload seq_number max_packet frame_data).mapM fragment_datagram

/-! ## Per-frame fan-out (`send_frames`, lines 291–312) -/

/-- The inner packet loop for one client (lines 295–302) under a
transport oracle: `failAt = some i` means the `sendto` of fragment `i`
to this client raises.  Returns how many fragments were delivered and
whether the loop was aborted by an exception. -/
def send_to_client (nfrags : Nat) (failAt : Option Nat) : Nat × Bool :=
  match failAt with
  | none => (nfrags, false)
  | some i => if i < nfrags then (i, true) else (nfrags, false)

/-- The fan-out over the snapshot `current_clients = self.clients.copy()`
(lines 292–312): each address gets the fragments in index order; an
exception while sending to one address discards exactly that address
from the live set and moves on to the next address.  Returns the live
client set afterwards and, per address in snapshot order, how many
fragments it was sent. -/
def fanout (clients : Finset Addr) (snapshot : List Addr) (nfrags : Nat)
    (failAt : Addr → Option Nat) : Finset Addr × List (Addr × Nat) :=
  match snapshot with
  | [] => (clients, [])
  | a :: rest =>
      let (sent, failed) := send_to_client nfrags (failAt a)
      let clients' := if failed then clients.erase a else clients
      let (cfin, log) := fanout clients' rest nfrags failAt
      (cfin, (a, sent) :: log)

/-! ## Broadcast loop iterations (`send_frames`, lines 262–312) -/

/-- What one iteration observes: `camera.read()` failing (`not ret`,
line 266), `cv2.imencode` failing (`not result`, line 278), or a
successfully encoded byte buffer. -/
inductive IterInput where
  | captureFail : IterInput
  | encodeFail : IterInput
  | encoded (frame_data : List Nat) : IterInput

/-- The mutable state the loop reads and writes. -/
structure LoopState where
  sequence_number : Nat
  clients : Finset Addr
deriving DecidableEq

/-- One iteration of the `send_frames` loop body: on either failure it
`continue`s before `self.sequence_number += 1`, sending nothing; on
success it increments the sequence number (no modulus is applied),
fragments, and fans out to a snapshot of the clients.  Returns the new
state and the per-address delivery log. -/
def send_frames_step (st : LoopState) (inp : IterInput)
    (failAt : Addr → Option Nat) : LoopState × List (Addr × Nat) :=
  match inp with
  | .captureFail => (st, [])
  | .encodeFail => (st, [])
  | .encoded frame_data =>
      let seq' := st.sequence_number + 1
      let frags := fragmentPayload seq' max_packet_size frame_data
      let snapshot := st.clients.sort (· ≤ ·)
      let (c', log) := fanout st.clients snapshot frags.length failAt
      ({ sequence_number := seq', clients := c' }, log)

/-- The sequence number after running the loop over a list of
iteration inputs, from the freshly started server
(`self.sequence_number = 0`, line 342). -/
def run_sequence_number (inputs : List IterInput) : Nat :=
  (inputs.foldl
    (fun st inp => (send_frames_step st inp (fun _ => none)).1)
    { sequence_number := 0, clients := ∅ }).sequence_number

/-! ## C1: color range validation -/

/-- C1 (counterexample): the control message `COLOR:300,10,10` — with
the red channel outside `[0,255]` — is *accepted*: the listener replies
`COLOR_OK` and overwrites the stored color with `(300, 10, 10)`.  The
code parses the three integers with `map(int, ...)` and stores them
with no range check, so the claimed `COLOR_ERROR` reply and unchanged
color do not happen. -/
theorem color_out_of_range_is_accepted :
    listen_for_controls_handle initParams "COLOR:300,10,10".data =
      ({ initParams with blush_color_rgb := (300, 10, 10) },
        some ControlReply.colorOk) ∧
    (listen_for_controls_handle initParams "COLOR:300,10,10".data).2 ≠
      some ControlReply.colorError := by
  exact ⟨rfl, by decide⟩

/-- C1 (amended): for every control datagram whose stripped text
starts with `COLOR:` and whose argument `command.split(":")[1]` parses
as three integers `r,g,b` — with no restriction to `[0,255]` — the
listener stores `(r, g, b)` and replies `COLOR_OK`; `COLOR_ERROR` is
sent only when the argument fails to parse as exactly three
integers. -/
theorem color_command_no_range_check (st : BlushParams) (d : Str)
    (r g b : Int)
    (h1 : startsWithText "COLOR:".data (pyStrip d) = true)
    (h2 : parseRGB ((pySplit ':' (pyStrip d)).getD 1 []) = some (r, g, b)) :
    listen_for_controls_handle st d =
      ({ st with blush_color_rgb := (r, g, b) }, some ControlReply.colorOk) := by
  unfold listen_for_controls_handle
  simp only [h1, if_true, h2]

/-- C1 (witness for the amended theorem), at the concrete out-of-range
input `COLOR:999,0,0`. -/
theorem color_command_no_range_check_witness :
    listen_for_controls_handle initParams "COLOR:999,0,0".data =
      ({ initParams with blush_color_rgb := (999, 0, 0) },
        some ControlReply.colorOk) :=
  color_command_no_range_check initParams "COLOR:999,0,0".data 999 0 0
    (by decide) (by decide)

/-! ## C3: registration idempotence and the REGISTERED reply -/

/-- C3 (counterexample): a second `REGISTER` from an
already-registered address receives *no* reply: the code guards the
whole branch — including the `sendto(b"REGISTERED", addr)` — with
`addr not in self.clients`, so the claim that the sender "still
receives a REGISTERED reply on every REGISTER it sends" fails. -/
theorem second_register_gets_no_reply :
    listen_for_clients_handle {0} 0 "REGISTER".data = ({0}, none) ∧
    (listen_for_clients_handle {0} 0 "REGISTER".data).2 ≠
      some "REGISTERED".data := by
  exact ⟨by decide, by decide⟩

/-- C3 (amended): `REGISTER` is an idempotent add — a second
`REGISTER` from an already-registered address leaves the registry with
exactly its one entry for that address — and the `REGISTERED`
confirmation is emitted exactly once, on the physical registration; a
re-`REGISTER` is silently ignored (no reply, rather than the claimed
reply on every `REGISTER`). -/
theorem register_idempotent_reply_once (clients : Finset Addr) (a : Addr) :
    (listen_for_clients_handle clients a "REGISTER".data =
      if a ∈ clients then (clients, none)
      else (insert a clients, some "REGISTERED".data)) ∧
    a ∈ (listen_for_clients_handle clients a "REGISTER".data).1 ∧
    listen_for_clients_handle
        (listen_for_clients_handle clients a "REGISTER".data).1 a
        "REGISTER".data =
      ((listen_for_clients_handle clients a "REGISTER".data).1, none) := by
  have hRU : ("REGISTER".data : Str) ≠ "UNREGISTER".data := by decide
  by_cases h : a ∈ clients <;>
    simp [listen_for_clients_handle, h, hRU, Finset.mem_insert]

/-! ## C4: decode errors and the registration listener's loop -/

/-- C4 (counterexample): a datagram whose UTF-8 decode raises makes
the `listen_for_clients` loop *break*: the generic
`except Exception: ... break` arm terminates the receive loop, so the
claim that the listener "continues to its next receive" on a decode
failure fails. -/
theorem decode_error_terminates_client_listener :
    listen_for_clients_step ∅ (.datagram 0 none) =
      (∅, none, LoopAction.breakLoop) ∧
    (listen_for_clients_step ∅ (.datagram 0 none)).2.2 ≠
      LoopAction.continueLoop := by
  exact ⟨by decide, by decide⟩

/-- C4 (amended): only a `socket.timeout` (and a successfully decoded
datagram) lets the registration listener proceed to its next receive;
a decode failure — like any other non-timeout exception — is caught by
the generic exception arm, logged, and `break`s the loop, terminating
the Registration Listener. -/
theorem client_listener_break_policy (clients : Finset Addr) (a : Addr) :
    listen_for_clients_step clients .timeout =
      (clients, none, LoopAction.continueLoop) ∧
    (∀ msg, (listen_for_clients_step clients (.datagram a (some msg))).2.2 =
      LoopAction.continueLoop) ∧
    listen_for_clients_step clients (.datagram a none) =
      (clients, none, LoopAction.breakLoop) ∧
    listen_for_clients_step clients .socketError =
      (clients, none, LoopAction.breakLoop) := by
  refine ⟨rfl, fun msg => ?_, rfl, rfl⟩
  rfl

/-! ## C10: exact matching of registration messages -/

/-- C10 (confirmed): the registration listener matches exactly — any
text other than the exact strings `REGISTER`/`UNREGISTER` (including
`REGISTER` with a leading space or a trailing newline) leaves the
registry unchanged and gets no reply — while the control listener
strips whitespace first, so a padded `COLOR:` command is accepted. -/
theorem registration_exact_match_controls_stripped :
    (∀ (clients : Finset Addr) (a : Addr) (msg : Str),
        msg ≠ "REGISTER".data → msg ≠ "UNREGISTER".data →
        listen_for_clients_handle clients a msg = (clients, none)) ∧
    listen_for_clients_handle ∅ 0 "REGISTER\n".data = (∅, none) ∧
    listen_for_clients_handle ∅ 0 " REGISTER".data = (∅, none) ∧
    listen_for_controls_handle initParams " COLOR:1,2,3\n".data =
      ({ initParams with blush_color_rgb := (1, 2, 3) },
        some ControlReply.colorOk) := by
  refine ⟨fun clients a msg h1 h2 => ?_, by decide, by decide, by rfl⟩
  simp [listen_for_clients_handle, h1, h2]

/-- C10 (witness): the non-command text `HELLO` leaves an empty
registry unchanged and draws no reply. -/
theorem registration_exact_match_witness :
    listen_for_clients_handle ∅ 3 "HELLO".data = (∅, none) :=
  registration_exact_match_controls_stripped.1 ∅ 3 "HELLO".data
    (by decide) (by decide)

/-! ## C2: fragmentation round-trip -/

/-- Concatenating the `ps`-sized chunks cut at offsets `0, ps, 2ps, …`
reproduces the list, for any chunk count large enough to cover it. -/
theorem join_range_chunks (ps : Nat) :
    ∀ (n : Nat) (l : List Nat), l.length ≤ n * ps →
      ((List.range n).map (fun i => (l.drop (i * ps)).take ps)).flatten = l := by
  intro n
  induction n with
  | zero =>
      intro l hl
      have hnil : l = [] := by
        cases l with
        | nil => rfl
        | cons a t => simp at hl
      simp [hnil]
  | succ n ih =>
      intro l hl
      rw [List.range_succ_eq_map, List.map_cons, List.map_map, List.flatten_cons]
      have hmap :
          (List.range n).map ((fun i => (l.drop (i * ps)).take ps) ∘ Nat.succ) =
          (List.range n).map (fun i => (((l.drop ps).drop (i * ps)).take ps)) := by
        apply List.map_congr_left
        intro i _
        simp only [Function.comp]
        rw [List.drop_drop, Nat.succ_mul, Nat.add_comm (i * ps) ps]
      have hlen : (l.drop ps).length ≤ n * ps := by
        rw [List.length_drop]
        have : l.length ≤ n * ps + ps := by
          calc l.length ≤ (n + 1) * ps := hl
          _ = n * ps + ps := by rw [Nat.succ_mul]
        omega
      rw [hmap, ih (l.drop ps) hlen]
      simp [List.take_append_drop]

/-- C2 (confirmed): for every payload and every `max_packet` strictly
greater than the 12-byte header size, the packetization of
`send_frames` produces exactly
`⌈frame_size / (max_packet - header_size)⌉` fragments, carrying the
indices `0 .. total-1` in order, and concatenating their payload
chunks in index order reproduces the payload byte-for-byte. -/
theorem fragmentation_round_trip (seq_number max_packet : Nat)
    (frame_data : List Nat) (hM : header_size < max_packet) :
    (fragmentPayload seq_number max_packet frame_data).length =
        frame_data.length ⌈/⌉ (max_packet - header_size) ∧
    (fragmentPayload seq_number max_packet frame_data).map Fragment.idx =
        List.range (fragmentPayload seq_number max_packet frame_data).length ∧
    ((fragmentPayload seq_number max_packet frame_data).map Fragment.chunk).flatten =
        frame_data := by
  have hps : 0 < max_packet - header_size := Nat.sub_pos_of_lt hM
  refine ⟨?_, ?_, ?_⟩
  · simp [fragmentPayload, Nat.ceilDiv_eq_add_pred_div]
  · simp only [fragmentPayload, List.length_map, List.length_range, List.map_map]
    exact (List.map_congr_left fun i _ => rfl).trans (List.map_id _)
  · have hcover :
        frame_data.length ≤
          ((frame_data.length + (max_packet - header_size) - 1) /
              (max_packet - header_size)) * (max_packet - header_size) := by
      have h := le_smul_ceilDiv (α := ℕ) (β := ℕ) hps (b := frame_data.length)
      rw [smul_eq_mul, Nat.ceilDiv_eq_add_pred_div] at h
      calc frame_data.length ≤
            (max_packet - header_size) *
              ((frame_data.length + (max_packet - header_size) - 1) /
                (max_packet - header_size)) := h
        _ = _ := Nat.mul_comm _ _
    have := join_range_chunks (max_packet - header_size)
      ((frame_data.length + (max_packet - header_size) - 1) /
        (max_packet - header_size)) frame_data hcover
    simpa [fragmentPayload, List.map_map, Function.comp] using this

/-- C2 (witness): a 5-byte payload with `max_packet = 14`
(`payload_size = 2`) yields `⌈5/2⌉ = 3` fragments with indices
`0, 1, 2` whose chunks concatenate back to the payload. -/
theorem fragmentation_round_trip_witness :
    header_size < 14 ∧
    ((fragmentPayload 9 14 [1, 2, 3, 4, 5]).length =
        [1, 2, 3, 4, 5].length ⌈/⌉ (14 - header_size) ∧
      (fragmentPayload 9 14 [1, 2, 3, 4, 5]).map Fragment.idx =
        List.range (fragmentPayload 9 14 [1, 2, 3, 4, 5]).length ∧
      ((fragmentPayload 9 14 [1, 2, 3, 4, 5]).map Fragment.chunk).flatten =
        [1, 2, 3, 4, 5]) :=
  ⟨by decide, fragmentation_round_trip 9 14 [1, 2, 3, 4, 5] (by decide)⟩

/-! ## C9: the zero-length payload -/

/-- C9 (confirmed): a zero-length payload fragments, for every
`max_packet` above the header size, into zero fragments — the ceiling
division `(0 + ps - 1) / ps` is `0` — so no datagram at all is emitted
for that frame, with no division by zero and no non-termination (the
embedding is total by construction). -/
theorem zero_payload_zero_fragments (seq_number max_packet : Nat)
    (hM : header_size < max_packet) :
    fragmentPayload seq_number max_packet [] = [] ∧
    frame_datagrams seq_number max_packet [] = some [] := by
  have hps : 0 < max_packet - header_size := Nat.sub_pos_of_lt hM
  have ht : (0 + (max_packet - header_size) - 1) / (max_packet - header_size)
      = 0 := Nat.div_eq_of_lt (by omega)
  have hfrag : fragmentPayload seq_number max_packet [] = [] := by
    simp only [fragmentPayload, List.length_nil]
    rw [ht]
    rfl
  refine ⟨hfrag, ?_⟩
  unfold frame_datagrams
  rw [hfrag]
  rfl

/-- C9 (witness): at the server's configured `max_packet_size`. -/
theorem zero_payload_zero_fragments_witness :
    header_size < max_packet_size ∧
    (fragmentPayload 0 max_packet_size [] = [] ∧
      frame_datagrams 0 max_packet_size [] = some []) :=
  ⟨by decide, zero_payload_zero_fragments 0 max_packet_size (by decide)⟩

/-! ## C7: sequence number advances only on encoded frames -/

/-- Helper: on a successfully encoded frame, the new state's sequence
number is the old one plus one. -/
theorem send_frames_step_encoded_seq (st : LoopState) (frame_data : List Nat)
    (failAt : Addr → Option Nat) :
    (send_frames_step st (.encoded frame_data) failAt).1.sequence_number =
      st.sequence_number + 1 := by
  simp [send_frames_step]

/-- C7 (confirmed): an iteration in which the camera yields no frame
(`not ret`) or JPEG encoding fails (`not result`) `continue`s before
`self.sequence_number += 1`: the state is unchanged and nothing is
sent; the sequence number advances (by exactly one) only on iterations
whose encoding succeeds. -/
theorem sequence_advances_only_on_success (st : LoopState)
    (failAt : Addr → Option Nat) :
    send_frames_step st .captureFail failAt = (st, []) ∧
    send_frames_step st .encodeFail failAt = (st, []) ∧
    ∀ frame_data,
      (send_frames_step st (.encoded frame_data) failAt).1.sequence_number =
        st.sequence_number + 1 :=
  ⟨rfl, rfl, fun frame_data =>
    send_frames_step_encoded_seq st frame_data failAt⟩

/-! ## C6: no 32-bit wrap of the sequence number -/

/-- Helper: folding the loop over `k` successfully encoded frames adds
exactly `k` to the sequence number. -/
theorem foldl_encoded_seq (frame_data : List Nat) :
    ∀ (k : Nat) (st : LoopState),
      ((List.replicate k (IterInput.encoded frame_data)).foldl
          (fun s inp => (send_frames_step s inp (fun _ => none)).1)
          st).sequence_number =
        st.sequence_number + k := by
  intro k
  induction k with
  | zero => intro st; rfl
  | succ k ih =>
      intro st
      rw [List.replicate_succ, List.foldl_cons, ih]
      rw [send_frames_step_encoded_seq]
      omega

/-- Helper: the sequence number after `k` successfully encoded frames
is exactly `k`. -/
theorem run_seq_replicate (k : Nat) (d : List Nat) :
    run_sequence_number (List.replicate k (IterInput.encoded d)) = k := by
  unfold run_sequence_number
  rw [foldl_encoded_seq]
  simp

/-- C6 (counterexample): after `2^32` successfully encoded frames the
sequence number is `2^32` itself — the code applies no modulus — and
packing the header of that frame fails (`struct.pack("!III", ...)`
raises `struct.error` for values above `2^32 - 1`), so fragment
emission does *not* succeed once the count reaches `2^32`, contrary to
the claim. -/
theorem sequence_number_does_not_wrap :
    run_sequence_number
        (List.replicate (2 ^ 32) (IterInput.encoded [1])) = 2 ^ 32 ∧
    frame_datagrams (2 ^ 32) max_packet_size [1] = none :=
  ⟨run_seq_replicate (2 ^ 32) [1], by decide⟩

/-- C6 (amended): the sequence number is incremented by one per
successfully encoded frame and never wraps: after `k` successes it
equals `k` exactly, and the fragment headers of the `k`-th frame pack
successfully — emitting its datagrams — precisely when `k < 2^32`;
from `k = 2^32` on, header packing fails and no datagram is emitted. -/
theorem sequence_number_increment_no_modulus (k : Nat) :
    run_sequence_number (List.replicate k (IterInput.encoded [1])) = k ∧
    ((frame_datagrams k max_packet_size [1]).isSome = true ↔ k < 2 ^ 32) := by
  refine ⟨run_seq_replicate k [1], ?_⟩
  · have hfrag : fragmentPayload k max_packet_size [1] =
        [{ seq := k, total := 1, idx := 0, chunk := [1] }] := by rfl
    unfold frame_datagrams
    rw [hfrag]
    by_cases hk : k < 2 ^ 32
    · have hpack : packHeader k 1 0 = some (be32 k ++ be32 1 ++ be32 0) := by
        unfold packHeader
        exact if_pos ⟨hk, by norm_num, by norm_num⟩
      exact iff_of_true
        (by simp [List.mapM.loop, fragment_datagram, hpack]) hk
    · have hpack : packHeader k 1 0 = none := by
        unfold packHeader
        exact if_neg (fun h => hk h.1)
      exact iff_of_false
        (by simp [List.mapM.loop, fragment_datagram, hpack]) hk

/-! ## C8: the wire layout of a frame-transport datagram -/

/-- C8 (confirmed): every datagram built for a fragment of a frame
(header fields in range) consists of the 12-byte header — the three
`u32` values `sequence_number`, `total_fragments`, `fragment_index` in
network byte order at offsets 0, 4, 8 — followed by the contiguous
payload chunk of at most `max_packet - 12` bytes, so the datagram is
at most `max_packet` bytes long. -/
theorem frame_datagram_layout (seq_number max_packet : Nat)
    (frame_data : List Nat) (f : Fragment)
    (hM : header_size < max_packet)
    (hseq : seq_number < 2 ^ 32)
    (hmem : f ∈ fragmentPayload seq_number max_packet frame_data)
    (htot : f.total < 2 ^ 32) :
    fragment_datagram f =
      some (be32 seq_number ++ be32 f.total ++ be32 f.idx ++ f.chunk) ∧
    f.chunk.length ≤ max_packet - header_size ∧
    ∀ d, fragment_datagram f = some d →
      d.length = header_size + f.chunk.length ∧ d.length ≤ max_packet := by
  simp only [fragmentPayload] at hmem
  obtain ⟨i, hi, hf⟩ := List.mem_map.mp hmem
  rw [List.mem_range] at hi
  subst hf
  simp only at htot ⊢
  have hidx : i < 2 ^ 32 := lt_trans hi htot
  have hpack :
      packHeader seq_number
          ((frame_data.length + (max_packet - header_size) - 1) /
            (max_packet - header_size)) i =
        some (be32 seq_number ++
          be32 ((frame_data.length + (max_packet - header_size) - 1) /
            (max_packet - header_size)) ++ be32 i) := by
    unfold packHeader
    rw [if_pos ⟨hseq, htot, hidx⟩]
  have hchunk :
      ((frame_data.drop (i * (max_packet - header_size))).take
          (max_packet - header_size)).length ≤ max_packet - header_size := by
    rw [List.length_take]
    omega
  refine ⟨?_, hchunk, ?_⟩
  · simp [fragment_datagram, hpack]
  · intro d hd
    simp [fragment_datagram, hpack] at hd
    subst hd
    have h12 : header_size = 12 := rfl
    simp [be32, h12]
    omega

/-- C8 (witness): the first fragment of a 3-byte payload at
`max_packet = 14` (`payload_size = 2`, `total = 2`). -/
theorem frame_datagram_layout_witness :
    header_size < 14 ∧
    (fragment_datagram { seq := 1, total := 2, idx := 0, chunk := [5, 6] } =
        some (be32 1 ++ be32 2 ++ be32 0 ++ [5, 6]) ∧
      ([5, 6] : List Nat).length ≤ 14 - header_size ∧
      ∀ d,
        fragment_datagram { seq := 1, total := 2, idx := 0, chunk := [5, 6] } =
          some d →
        d.length = header_size + ([5, 6] : List Nat).length ∧ d.length ≤ 14) :=
  ⟨by decide,
    frame_datagram_layout 1 14 [5, 6, 7]
      { seq := 1, total := 2, idx := 0, chunk := [5, 6] }
      (by decide) (by decide) (by decide) (by decide)⟩

/-! ## C5: a send failure is isolated to its client -/

/-- C5 (confirmed): during one frame's fan-out over a snapshot, if the
transport fails exactly for address `b` (at fragment index `i < n`)
and for no other address, then: the final registry is the old one with
exactly `b` removed (unchanged when `b` is not in the snapshot); every
other address in the snapshot is sent all `n` fragments; `b` is sent
only its first `i` fragments — its remaining fragments for this frame
are aborted; and every other registered address keeps its
membership. -/
theorem fanout_isolates_failing_client (clients : Finset Addr)
    (snapshot : List Addr) (n : Nat) (failAt : Addr → Option Nat)
    (b : Addr) (i : Nat)
    (hb : failAt b = some i) (hi : i < n)
    (hothers : ∀ a, a ≠ b → failAt a = none) :
    ((fanout clients snapshot n failAt).1 =
        if b ∈ snapshot then clients.erase b else clients) ∧
    (∀ a ∈ snapshot, a ≠ b → (a, n) ∈ (fanout clients snapshot n failAt).2) ∧
    (b ∈ snapshot → (b, i) ∈ (fanout clients snapshot n failAt).2) ∧
    (∀ a ∈ clients, a ≠ b → a ∈ (fanout clients snapshot n failAt).1) := by
  induction snapshot generalizing clients with
  | nil =>
      refine ⟨by simp [fanout], by simp [fanout], by simp, fun a ha _ => ha⟩
  | cons c rest ih =>
      by_cases hc : c = b
      · subst hc
        have hstep : send_to_client n (failAt c) = (i, true) := by
          rw [hb, send_to_client, if_pos hi]
        have hfan : fanout clients (c :: rest) n failAt =
            ((fanout (clients.erase c) rest n failAt).1,
              (c, i) :: (fanout (clients.erase c) rest n failAt).2) := by
          simp [fanout, hstep]
        obtain ⟨ih1, ih2, ih3, ih4⟩ := ih (clients.erase c)
        refine ⟨?_, ?_, ?_, ?_⟩
        · rw [hfan, if_pos (List.mem_cons_self c rest)]
          rw [show (fanout (clients.erase c) rest n failAt).1 =
              ((fanout (clients.erase c) rest n failAt).1,
                (c, i) :: (fanout (clients.erase c) rest n failAt).2).1
            from rfl] at ih1 ⊢
          rw [ih1]
          by_cases hr : c ∈ rest
          · rw [if_pos hr, Finset.erase_idem]
          · rw [if_neg hr]
        · intro a ha hab
          rcases List.mem_cons.mp ha with h | h
          · exact absurd h hab
          · rw [hfan]
            exact List.mem_cons_of_mem _ (ih2 a h hab)
        · intro _
          rw [hfan]
          exact List.mem_cons_self _ _
        · intro a ha hab
          rw [hfan]
          exact ih4 a (Finset.mem_erase.mpr ⟨hab, ha⟩) hab
      · have hstep : send_to_client n (failAt c) = (n, false) := by
          rw [hothers c hc, send_to_client]
        have hfan : fanout clients (c :: rest) n failAt =
            ((fanout clients rest n failAt).1,
              (c, n) :: (fanout clients rest n failAt).2) := by
          simp [fanout, hstep]
        obtain ⟨ih1, ih2, ih3, ih4⟩ := ih clients
        refine ⟨?_, ?_, ?_, ?_⟩
        · rw [hfan]
          rw [show (fanout clients rest n failAt).1 =
              ((fanout clients rest n failAt).1,
                (c, n) :: (fanout clients rest n failAt).2).1
            from rfl] at ih1
          rw [ih1]
          by_cases hr : b ∈ rest
          · rw [if_pos hr, if_pos (List.mem_cons_of_mem _ hr)]
          · rw [if_neg hr, if_neg (by
              intro h
              rcases List.mem_cons.mp h with h | h
              · exact hc h.symm
              · exact hr h)]
        · intro a ha hab
          rcases List.mem_cons.mp ha with h | h
          · subst h
            rw [hfan]
            exact List.mem_cons_self _ _
          · rw [hfan]
            exact List.mem_cons_of_mem _ (ih2 a h hab)
        · intro hbm
          have hbr : b ∈ rest := by
            rcases List.mem_cons.mp hbm with h | h
            · exact absurd h.symm hc
            · exact h
          rw [hfan]
          exact List.mem_cons_of_mem _ (ih3 hbr)
        · intro a ha hab
          rw [hfan]
          exact ih4 a ha hab

/-- C5 (witness): snapshot `[0, 1, 2]`, four fragments, the transport
failing only for address `1` at fragment index `2`. -/
theorem fanout_isolates_failing_client_witness :
    ((fun a => if a = 1 then some 2 else none) 1 = some 2 ∧ 2 < 4 ∧
      ∀ a, a ≠ 1 → (fun a => if a = 1 then some 2 else none) a = none) ∧
    (((fanout {0, 1, 2} [0, 1, 2] 4 (fun a => if a = 1 then some 2 else none)).1 =
        if 1 ∈ [0, 1, 2] then ({0, 1, 2} : Finset Addr).erase 1
        else {0, 1, 2}) ∧
      (∀ a ∈ [0, 1, 2], a ≠ 1 →
        (a, 4) ∈
          (fanout {0, 1, 2} [0, 1, 2] 4
            (fun a => if a = 1 then some 2 else none)).2) ∧
      (1 ∈ [0, 1, 2] →
        (1, 2) ∈
          (fanout {0, 1, 2} [0, 1, 2] 4
            (fun a => if a = 1 then some 2 else none)).2) ∧
      (∀ a ∈ ({0, 1, 2} : Finset Addr), a ≠ 1 →
        a ∈
          (fanout {0, 1, 2} [0, 1, 2] 4
            (fun a => if a = 1 then some 2 else none)).1)) :=
  ⟨⟨rfl, by decide, fun a h => if_neg h⟩,
    fanout_isolates_failing_client {0, 1, 2} [0, 1, 2] 4
      (fun a => if a = 1 then some 2 else none) 1 2 rfl (by decide)
      (fun a h => if_neg h)⟩
